import Mathlib

/-!
Verification of `docker/get_version.py`.

The script is:

```
BASE_DIR = os.path.abspath(os.path.join(os.path.dirname(__file__), os.pardir))
PACKAGE_JSON = os.path.join(BASE_DIR, "superset-frontend", "package.json")
with open(PACKAGE_JSON, "r") as package_file:
    version_string = json.load(package_file)["version"]

print(version_string)
```

We embed it shallowly: filesystem paths are lists of components, the
filesystem is a partial map from paths to textual content, `json.load` is a
recursive-descent parser mirroring CPython's `json` module (including the
`NaN` / `Infinity` extensions, last-occurrence-wins duplicate object keys via
Python `dict` insertion, and strict rejection of unescaped control characters),
and `print` appends a newline to Python's `str` rendering of the value.
-/

namespace GetVersion

/-- Error classes a run of the script can terminate with, mirroring the
Python exception classes that each step of the script can raise. -/
inductive PyError where
  | fileNotFoundError
  | jsonDecodeError
  | keyError
  | typeError
deriving DecidableEq

/-- Numbers as produced by Python's `json` parser: `int` for integer
literals, a float for literals with a fraction or exponent (kept here as an
exact signed decimal `(-1)^neg * mant * 10^exp`, which matches CPython's
shortest-round-trip rendering for the literals of ordinary magnitude and
precision that version manifests hold), and the `NaN` / `Infinity`
extensions CPython's parser accepts. -/
inductive PyNumber where
  | int (n : Int)
  | float (neg : Bool) (mant : Nat) (exp : Int)
  | nan
  | inf (neg : Bool)
deriving DecidableEq

/-- Raw parse tree of a JSON document: object members are kept in document
order with duplicates intact, exactly as the grammar produces them and
before Python folds them into a `dict`. -/
inductive RawJson where
  | null
  | boolean (b : Bool)
  | number (n : PyNumber)
  | string (s : String)
  | array (xs : List RawJson)
  | object (ps : List (String × RawJson))

/-- Values as Python's `json.load` returns them: objects are `dict`s, i.e.
association lists with distinct keys, first-insertion order, where a
duplicate source key kept its first position but its last value. -/
inductive JValue where
  | null
  | bool (b : Bool)
  | num (n : PyNumber)
  | str (s : String)
  | arr (xs : List JValue)
  | obj (ps : List (String × JValue))

/-- Whitespace skipped by CPython's json scanner: space, tab, LF, CR. -/
def isJsonWs (c : Char) : Bool :=
  c = ' ' || c = '\t' || c = '\n' || c = '\r'

/-- Drop leading JSON whitespace. -/
def skipWs : List Char → List Char
  | [] => []
  | c :: rest => if isJsonWs c then skipWs rest else c :: rest

/-- Opening curly brace character. -/
def lbrace : Char := Char.ofNat 0x7B

/-- Closing curly brace character. -/
def rbrace : Char := Char.ofNat 0x7D

/-- Numeric value of a decimal digit character. -/
def digitVal (c : Char) : Nat := c.toNat - '0'.toNat

/-- Numeric value of a hexadecimal digit character, if it is one. -/
def hexVal (c : Char) : Option Nat :=
  if '0' ≤ c ∧ c ≤ '9' then some (c.toNat - '0'.toNat)
  else if 'a' ≤ c ∧ c ≤ 'f' then some (c.toNat - 'a'.toNat + 10)
  else if 'A' ≤ c ∧ c ≤ 'F' then some (c.toNat - 'A'.toNat + 10)
  else none

/-- Interpret a list of decimal digit characters as a natural number. -/
def digitsToNat (ds : List Char) : Nat :=
  ds.foldl (fun a c => 10 * a + digitVal c) 0

/-- Split off the maximal leading run of decimal digits. -/
def spanDigits (cs : List Char) : List Char × List Char :=
  cs.span Char.isDigit

/-- Read exactly four hex digits, returning their value and the rest. -/
def parseHex4 : List Char → Option (Nat × List Char)
  | a :: b :: c :: d :: rest => do
    let va ← hexVal a
    let vb ← hexVal b
    let vc ← hexVal c
    let vd ← hexVal d
    some (((va * 16 + vb) * 16 + vc) * 16 + vd, rest)
  | _ => none

/-- Strip factors of ten from a mantissa, bumping the exponent, so that the
decimal `(mant, exp)` representation is canonical; `fuel` bounds the number
of strippable zeros (the mantissa itself always suffices). -/
def stripZeros : Nat → Nat → Int → Nat × Int
  | 0, m, e => (m, e)
  | fuel + 1, m, e =>
    if m ≠ 0 ∧ m % 10 = 0 then stripZeros fuel (m / 10) (e + 1) else (m, e)

/-- Build the float for a parsed literal with integer digits `intD`,
fraction digits `fracD` and decimal exponent `exps`. -/
def mkFloat (neg : Bool) (intD fracD : List Char) (exps : Int) : PyNumber :=
  let mant := digitsToNat (intD ++ fracD)
  let e : Int := exps - (fracD.length : Int)
  let me := stripZeros mant mant e
  if me.1 = 0 then .float neg 0 0 else .float neg me.1 me.2

/-- Parse a JSON number starting at `cs` (first char is `-` or a digit),
following CPython's `NUMBER_RE`: `-? (0 | [1-9][0-9]*) (\.[0-9]+)?
([eE][-+]?[0-9]+)?`; the result is an `int` when neither fraction nor
exponent is present, else a float. -/
def parseNumber (cs : List Char) : Option (PyNumber × List Char) :=
  let (neg, cs1) := match cs with
    | '-' :: rest => (true, rest)
    | _ => (false, cs)
  match cs1 with
  | '0' :: rest => parseNumberTail neg ['0'] rest
  | c :: rest =>
    if c.isDigit then
      let (ds, rest') := spanDigits rest
      parseNumberTail neg (c :: ds) rest'
    else none
  | [] => none
where
  /-- Parse the optional fraction and exponent after the integer digits. -/
  parseNumberTail (neg : Bool) (intD : List Char) (cs : List Char) :
      Option (PyNumber × List Char) :=
    let (fracD, cs2) := match cs with
      | '.' :: rest =>
        match spanDigits rest with
        | ([], _) => ([], cs)
        | (ds, rest') => (ds, rest')
      | _ => ([], cs)
    let expPart : Option (Int × List Char) := match cs2 with
      | c :: rest =>
        if c = 'e' ∨ c = 'E' then
          let (esign, rest1) := match rest with
            | '-' :: r => ((-1 : Int), r)
            | '+' :: r => ((1 : Int), r)
            | _ => ((1 : Int), rest)
          match spanDigits rest1 with
          | ([], _) => none
          | (ds, rest2) => some (esign * (digitsToNat ds : Int), rest2)
        else none
      | [] => none
    match expPart with
    | some (ex, cs3) => some (mkFloat neg intD fracD ex, cs3)
    | none =>
      if fracD = [] then
        some (.int (if neg then -(digitsToNat intD : Int) else (digitsToNat intD : Int)), cs2)
      else
        some (mkFloat neg intD fracD 0, cs2)

/-- Parse the body of a JSON string (the opening quote already consumed),
accumulating into `acc`, following CPython's strict scanner: an unescaped
control character (below `0x20`) is an error, the escapes are
`\" \\ \/ \b \f \n \r \t \uXXXX`, and a `\u` high surrogate followed by a
`\u` low surrogate combines into one code point. CPython keeps a lone
surrogate in the `str`; Lean's `Char` cannot hold one, so the model maps a
lone surrogate to U+FFFD (no claim depends on that corner). `fuel` bounds
the iterations; the remaining length always suffices. -/
def parseStringBody : Nat → List Char → String → Option (String × List Char)
  | 0, _, _ => none
  | fuel + 1, cs, acc =>
    match cs with
    | [] => none
    | '"' :: rest => some (acc, rest)
    | '\\' :: esc =>
      match esc with
      | '"' :: r => parseStringBody fuel r (acc.push '"')
      | '\\' :: r => parseStringBody fuel r (acc.push '\\')
      | '/' :: r => parseStringBody fuel r (acc.push '/')
      | 'b' :: r => parseStringBody fuel r (acc.push (Char.ofNat 0x08))
      | 'f' :: r => parseStringBody fuel r (acc.push (Char.ofNat 0x0C))
      | 'n' :: r => parseStringBody fuel r (acc.push '\n')
      | 'r' :: r => parseStringBody fuel r (acc.push '\r')
      | 't' :: r => parseStringBody fuel r (acc.push '\t')
      | 'u' :: r =>
        match parseHex4 r with
        | none => none
        | some (n, r1) =>
          if 0xD800 ≤ n ∧ n ≤ 0xDBFF then
            match r1 with
            | '\\' :: 'u' :: r2 =>
              match parseHex4 r2 with
              | some (n2, r3) =>
                if 0xDC00 ≤ n2 ∧ n2 ≤ 0xDFFF then
                  parseStringBody fuel r3
                    (acc.push (Char.ofNat (0x10000 + (n - 0xD800) * 0x400 + (n2 - 0xDC00))))
                else parseStringBody fuel r1 (acc.push (Char.ofNat 0xFFFD))
              | none => parseStringBody fuel r1 (acc.push (Char.ofNat 0xFFFD))
            | _ => parseStringBody fuel r1 (acc.push (Char.ofNat 0xFFFD))
          else if 0xDC00 ≤ n ∧ n ≤ 0xDFFF then
            parseStringBody fuel r1 (acc.push (Char.ofNat 0xFFFD))
          else
            parseStringBody fuel r1 (acc.push (Char.ofNat n))
      | _ => none
    | c :: rest =>
      if c.toNat < 0x20 then none else parseStringBody fuel rest (acc.push c)

mutual

/-- Parse one JSON value at `cs` (leading whitespace already skipped),
dispatching on the first character exactly as CPython's `scan_once` does:
string, object, array, the constants `null` / `true` / `false` /
`NaN` / `Infinity` / `-Infinity`, and otherwise a number. -/
def parseValue : Nat → List Char → Option (RawJson × List Char)
  | 0, _ => none
  | fuel + 1, cs =>
    match cs with
    | [] => none
    | c :: rest =>
      if c = '"' then
        match parseStringBody (rest.length + 1) rest "" with
        | some (s, r) => some (.string s, r)
        | none => none
      else if c = lbrace then
        match skipWs rest with
        | c2 :: r2 =>
          if c2 = rbrace then some (.object [], r2)
          else
            match parseMembers fuel (c2 :: r2) with
            | some (ps, r) => some (.object ps, r)
            | none => none
        | [] => none
      else if c = '[' then
        match skipWs rest with
        | ']' :: r2 => some (.array [], r2)
        | r1 =>
          match parseElems fuel r1 with
          | some (xs, r) => some (.array xs, r)
          | none => none
      else
        match cs with
        | 'n' :: 'u' :: 'l' :: 'l' :: r => some (.null, r)
        | 't' :: 'r' :: 'u' :: 'e' :: r => some (.boolean true, r)
        | 'f' :: 'a' :: 'l' :: 's' :: 'e' :: r => some (.boolean false, r)
        | 'N' :: 'a' :: 'N' :: r => some (.number .nan, r)
        | 'I' :: 'n' :: 'f' :: 'i' :: 'n' :: 'i' :: 't' :: 'y' :: r =>
          some (.number (.inf false), r)
        | '-' :: 'I' :: 'n' :: 'f' :: 'i' :: 'n' :: 'i' :: 't' :: 'y' :: r =>
          some (.number (.inf true), r)
        | _ =>
          if c = '-' ∨ c.isDigit then
            match parseNumber cs with
            | some (n, r) => some (.number n, r)
            | none => none
          else none

/-- Parse the elements of a non-empty JSON array, positioned at the first
character of an element (whitespace skipped); consumes the closing `]`. -/
def parseElems : Nat → List Char → Option (List RawJson × List Char)
  | 0, _ => none
  | fuel + 1, cs =>
    match parseValue fuel cs with
    | none => none
    | some (v, r1) =>
      match skipWs r1 with
      | ']' :: r2 => some ([v], r2)
      | ',' :: r2 =>
        match parseElems fuel (skipWs r2) with
        | some (vs, r3) => some (v :: vs, r3)
        | none => none
      | _ => none

/-- Parse the members of a non-empty JSON object, positioned at the opening
quote of a key (whitespace skipped); consumes the closing brace. Members
are returned in document order, duplicates intact. -/
def parseMembers : Nat → List Char → Option (List (String × RawJson) × List Char)
  | 0, _ => none
  | fuel + 1, cs =>
    match cs with
    | '"' :: r0 =>
      match parseStringBody (r0.length + 1) r0 "" with
      | none => none
      | some (k, r1) =>
        match skipWs r1 with
        | ':' :: r2 =>
          match parseValue fuel (skipWs r2) with
          | none => none
          | some (v, r3) =>
            match skipWs r3 with
            | c :: r4 =>
              if c = rbrace then some ([(k, v)], r4)
              else if c = ',' then
                match parseMembers fuel (skipWs r4) with
                | some (ms, r5) => some ((k, v) :: ms, r5)
                | none => none
              else none
            | [] => none
        | _ => none
    | _ => none

end

/-- Look a key up in an association list (Python `dict` lookup; the lists
built by `dictInsert` have distinct keys, so first match is the match). -/
def lookupDict {α : Type} : List (String × α) → String → Option α
  | [], _ => none
  | (k', v) :: rest, k => if k' = k then some v else lookupDict rest k

/-- Insert a key into a Python `dict`: an existing key keeps its position
but takes the new value, a new key is appended (CPython insertion order). -/
def dictInsert {α : Type} : List (String × α) → String → α → List (String × α)
  | [], k, v => [(k, v)]
  | (k', v') :: rest, k, v =>
    if k' = k then (k', v) :: rest else (k', v') :: dictInsert rest k v

/-- Value of the last occurrence of a key in a raw member list — the
"final entry in document order". -/
def lastAssoc {α : Type} : List (String × α) → String → Option α
  | [], _ => none
  | (k', v) :: rest, k =>
    match lastAssoc rest k with
    | some w => some w
    | none => if k' = k then some v else none

mutual

/-- Fold a raw parse tree into the value `json.load` returns: object member
lists become `dict`s by inserting each member in document order, so a
duplicated key ends up with its last value. -/
def collapse : RawJson → JValue
  | .null => .null
  | .boolean b => .bool b
  | .number n => .num n
  | .string s => .str s
  | .array xs => .arr (collapseList xs)
  | .object ps => .obj (collapseMembers ps [])

/-- Collapse every element of an array. -/
def collapseList : List RawJson → List JValue
  | [] => []
  | x :: xs => collapse x :: collapseList xs

/-- Insert the collapsed members into the accumulating `dict`, left to
right in document order. -/
def collapseMembers : List (String × RawJson) → List (String × JValue) → List (String × JValue)
  | [], acc => acc
  | (k, v) :: rest, acc => collapseMembers rest (dictInsert acc k (collapse v))

end

/-- Embedding of `json.loads` applied to the file's full text: skip leading
whitespace, parse one value, require only whitespace after it ("Extra
data" otherwise), and return the raw tree. `none` models
`json.JSONDecodeError`. The fuel `2 * length + 2` dominates the recursion
depth, which grows by at most two per consumed character. -/
def json_loads_raw (s : String) : Option RawJson :=
  let cs := skipWs s.data
  match parseValue (2 * cs.length + 2) cs with
  | some (v, rest) => if skipWs rest = [] then some v else none
  | none => none

/-- Embedding of Python's `json.load`: parse, then fold objects into
`dict`s. -/
def json_loads (s : String) : Option JValue :=
  (json_loads_raw s).map collapse

/-- Two lowercase hex digits of a byte, for `repr` string escapes. -/
def hexDigit (n : Nat) : Char :=
  if n < 10 then Char.ofNat ('0'.toNat + n) else Char.ofNat ('a'.toNat + n - 10)

/-- Render one character inside a Python `repr` string literal quoted with
`q`: escape the backslash, the quote, `\t`, `\n`, `\r`, and other
non-printable ASCII as `\xNN` (CPython also escapes some non-ASCII
code points via Unicode tables; version manifests are ASCII, and no claim
depends on that corner). -/
def pyReprChar (q : Char) (c : Char) : String :=
  if c = '\\' then "\\\\"
  else if c = q then String.mk ['\\', q]
  else if c = '\t' then "\\t"
  else if c = '\n' then "\\n"
  else if c = '\r' then "\\r"
  else if c.toNat < 0x20 ∨ c.toNat = 0x7F then
    String.mk ['\\', 'x', hexDigit (c.toNat / 16), hexDigit (c.toNat % 16)]
  else String.singleton c

/-- Python `repr` of a string: single-quoted, except double-quoted when the
string holds a single quote but no double quote. -/
def pyStrRepr (s : String) : String :=
  let q : Char :=
    if s.data.contains '\'' ∧ ¬ s.data.contains '"' then '"' else '\''
  String.singleton q ++ String.join (s.data.map (pyReprChar q)) ++ String.singleton q

/-- Python `str`/`repr` of a float held as exact decimal
`(-1)^neg * mant * 10^exp` (canonical `mant`, `exp`): fixed notation while
the scientific exponent lies in `[-4, 16)`, with at least one digit on each
side of the point, otherwise scientific notation with a signed two-or-more
digit exponent — CPython's float `repr` format for values of this
precision. -/
def pyFloatRepr (neg : Bool) (mant : Nat) (exp : Int) : String :=
  let sign := if neg then "-" else ""
  if mant = 0 then sign ++ "0.0"
  else
    let ds := Nat.toDigits 10 mant
    let k : Int := ((ds.length : Int) - 1) + exp
    if -4 ≤ k ∧ k < 16 then
      if 0 ≤ exp then
        sign ++ String.mk ds ++ String.mk (List.replicate exp.toNat '0') ++ ".0"
      else
        let f := exp.natAbs
        if ds.length > f then
          sign ++ String.mk (ds.take (ds.length - f)) ++ "." ++
            String.mk (ds.drop (ds.length - f))
        else
          sign ++ "0." ++ String.mk (List.replicate (f - ds.length) '0') ++ String.mk ds
    else
      let mantStr :=
        String.mk (ds.take 1) ++
          (if ds.drop 1 = [] then "" else "." ++ String.mk (ds.drop 1))
      let eabs := k.natAbs
      sign ++ mantStr ++ "e" ++ (if k < 0 then "-" else "+") ++
        (if eabs < 10 then "0" ++ toString eabs else toString eabs)

/-- Python `repr` (= `str`) of a number returned by the json parser. -/
def pyNumRepr : PyNumber → String
  | .int n => toString n
  | .float neg mant exp => pyFloatRepr neg mant exp
  | .nan => "nan"
  | .inf false => "inf"
  | .inf true => "-inf"

mutual

/-- Python `repr` of a json value: containers render their elements with
`repr`, the scalars as Python prints them. -/
def pyRepr : JValue → String
  | .null => "None"
  | .bool true => "True"
  | .bool false => "False"
  | .num n => pyNumRepr n
  | .str s => pyStrRepr s
  | .arr xs => "[" ++ pyReprList xs ++ "]"
  | .obj ps => "\x7b" ++ pyReprObj ps ++ "\x7d"

/-- Comma-separated `repr`s of list elements. -/
def pyReprList : List JValue → String
  | [] => ""
  | [x] => pyRepr x
  | x :: y :: xs => pyRepr x ++ ", " ++ pyReprList (y :: xs)

/-- Comma-separated `key: value` pairs of a dict, both sides `repr`ed. -/
def pyReprObj : List (String × JValue) → String
  | [] => ""
  | [(k, v)] => pyStrRepr k ++ ": " ++ pyRepr v
  | (k, v) :: p :: ps => pyStrRepr k ++ ": " ++ pyRepr v ++ ", " ++ pyReprObj (p :: ps)

end

/-- Python `str` of a json value, as `print` renders its argument: a string
passes through verbatim, anything else renders as its `repr`. -/
def pyStr : JValue → String
  | .str s => s
  | v => pyRepr v

/-- An absolute filesystem path, as its list of components below the
root. -/
abbrev Path : Type := List String

/-- One step of POSIX path normalization as `os.path.abspath` performs it on
an absolute path: an empty component or `.` disappears, `..` removes the
component before it (nothing above the root), anything else is kept. -/
def normStep (acc : List String) (s : String) : List String :=
  if s = "" ∨ s = "." then acc
  else if s = ".." then acc.dropLast
  else acc ++ [s]

/-- Normalize an absolute path's components (`os.path.abspath` minus the
make-absolute step, which is the identity here because the anchor is already
absolute). -/
def normalizeSegs (xs : List String) : List String :=
  xs.foldl normStep []

/-- Embedding of `BASE_DIR = os.path.abspath(os.path.join(os.path.dirname(
__file__), os.pardir))`: the script's own directory `selfDir` joined with
`..` and normalized. -/
def BASE_DIR (selfDir : Path) : Path :=
  normalizeSegs (selfDir ++ [".."])

/-- Embedding of `PACKAGE_JSON = os.path.join(BASE_DIR, "superset-frontend",
"package.json")`. -/
def PACKAGE_JSON (selfDir : Path) : Path :=
  BASE_DIR selfDir ++ ["superset-frontend", "package.json"]

/-- The filesystem as the script can observe it: each path either yields
its text content on `open(..., "r")` or fails to (absent or unreadable,
raising `FileNotFoundError`). -/
def FS : Type := Path → Option String

/-- Observable outcome of one invocation of the script: what reached
standard output, the process exit status (CPython exits `1` on an unhandled
exception), the class of the unhandled exception if any, every path an
`open` call was given, and the file handles acquired and released (the
`with` statement closes the handle on every exit from its body, normal or
exceptional). -/
structure RunResult where
  stdout : String
  exitCode : Nat
  error : Option PyError
  opened : List Path
  acquired : List Path
  released : List Path
deriving DecidableEq

/-- Embedding of Python `d["version"]` on a `json.load` result: a `dict`
lookup that raises `KeyError` on a missing key, and `TypeError` when the
value is not a `dict` at all (`list`, `str`, `int`, `float`, `bool` and
`None` all reject a string subscript this way). -/
def subscript (v : JValue) (k : String) : Except PyError JValue :=
  match v with
  | .obj ps =>
    match lookupDict ps k with
    | some w => .ok w
    | none => .error .keyError
  | _ => .error .typeError

/-- Embedding of the whole script, run with its own directory at `selfDir`
over filesystem `fs`: compute `PACKAGE_JSON`, open it (the `with` block),
`json.load` it, take `["version"]`, close the file, and `print` the result
(its `str` plus a newline). Each failure leaves the exception unhandled:
exit status 1 and nothing on standard output. -/
def get_version (selfDir : Path) (fs : FS) : RunResult :=
  let pj := PACKAGE_JSON selfDir
  match fs pj with
  | none =>
    { stdout := "", exitCode := 1, error := some .fileNotFoundError,
      opened := [pj], acquired := [], released := [] }
  | some content =>
    match json_loads content with
    | none =>
      { stdout := "", exitCode := 1, error := some .jsonDecodeError,
        opened := [pj], acquired := [pj], released := [pj] }
    | some v =>
      match subscript v "version" with
      | .error e =>
        { stdout := "", exitCode := 1, error := some e,
          opened := [pj], acquired := [pj], released := [pj] }
      | .ok w =>
        { stdout := pyStr w ++ "\n", exitCode := 0, error := none,
          opened := [pj], acquired := [pj], released := [pj] }

/-- Whether a json value is a Python `str`. -/
def isStr : JValue → Bool
  | .str _ => true
  | _ => false

/-- Whether a json value is a Python `dict`. -/
def isObj : JValue → Bool
  | .obj _ => true
  | _ => false

/-- Looking up in a dict after a `dictInsert` sees the inserted value at the
inserted key and is unchanged elsewhere. -/
theorem lookup_dictInsert {α : Type} (d : List (String × α)) (k k' : String) (v : α) :
    lookupDict (dictInsert d k v) k' = if k = k' then some v else lookupDict d k' := by
  induction d with
  | nil =>
    by_cases h : k = k' <;> simp [dictInsert, lookupDict, h]
  | cons p rest ih =>
    obtain ⟨k₀, v₀⟩ := p
    by_cases h0 : k₀ = k
    · subst h0
      by_cases h : k₀ = k' <;> simp [dictInsert, lookupDict, h]
    · by_cases h : k₀ = k'
      · subst h
        simp [dictInsert, lookupDict, h0, Ne.symm h0]
      · simp [dictInsert, lookupDict, h0, h, ih]

/-- Folding raw members into a dict realizes last-occurrence-wins: the dict
lookup finds the collapsed value of the final occurrence of the key in
document order, falling back to the accumulator for absent keys. -/
theorem lookup_collapseMembers (ps : List (String × RawJson)) :
    ∀ (acc : List (String × JValue)) (k : String),
      lookupDict (collapseMembers ps acc) k =
        match lastAssoc ps k with
        | some rv => some (collapse rv)
        | none => lookupDict acc k := by
  induction ps with
  | nil => intro acc k; rfl
  | cons p rest ih =>
    intro acc k
    obtain ⟨k₀, v₀⟩ := p
    simp only [collapseMembers, lastAssoc]
    rw [ih]
    cases h : lastAssoc rest k with
    | some w => rfl
    | none =>
      rw [lookup_dictInsert]
      by_cases hk : k₀ = k <;> simp [hk]

/-- Folding `normStep` over components free of `""`, `"."` and `".."` just
appends them. -/
theorem foldl_normStep_clean (xs : List String) :
    ∀ acc, (∀ s ∈ xs, s ≠ "" ∧ s ≠ "." ∧ s ≠ "..") →
      xs.foldl normStep acc = acc ++ xs := by
  induction xs with
  | nil => intro acc _; simp
  | cons x xs ih =>
    intro acc h
    have hx := h x (List.mem_cons_self x xs)
    have hstep : normStep acc x = acc ++ [x] := by
      simp [normStep, hx.1, hx.2.1, hx.2.2]
    simp only [List.foldl_cons, hstep]
    rw [ih _ (fun s hs => h s (List.mem_cons_of_mem _ hs))]
    simp

/-- On a normalized absolute anchor, the computed manifest path is the
anchor's parent followed by `superset-frontend/package.json`. -/
theorem PACKAGE_JSON_eq (selfDir : Path)
    (h : ∀ s ∈ selfDir, s ≠ "" ∧ s ≠ "." ∧ s ≠ "..") :
    PACKAGE_JSON selfDir = selfDir.dropLast ++ ["superset-frontend", "package.json"] := by
  unfold PACKAGE_JSON BASE_DIR normalizeSegs
  rw [show selfDir ++ [".."] = selfDir ++ [".."] from rfl, List.foldl_append,
    foldl_normStep_clean selfDir [] h]
  simp only [List.foldl_cons, List.foldl_nil, List.nil_append]
  rw [show normStep selfDir ".." = selfDir.dropLast from by
    unfold normStep
    rw [if_neg (by decide), if_pos rfl]]

/-- Whatever the filesystem holds, the run's released handles are exactly
its acquired handles, and the only path ever opened is `PACKAGE_JSON`. -/
theorem run_shape (selfDir : Path) (fs : FS) :
    (get_version selfDir fs).released = (get_version selfDir fs).acquired ∧
    (get_version selfDir fs).opened = [PACKAGE_JSON selfDir] := by
  unfold get_version
  dsimp only
  cases hfs : fs (PACKAGE_JSON selfDir) with
  | none => exact ⟨rfl, rfl⟩
  | some content =>
    dsimp only
    cases hj : json_loads content with
    | none => exact ⟨rfl, rfl⟩
    | some v =>
      dsimp only
      cases hs : subscript v "version" with
      | error e => exact ⟨rfl, rfl⟩
      | ok w => exact ⟨rfl, rfl⟩

/-- C1: for every manifest whose content parses as a JSON object whose
`"version"` key maps to a string `s`, the resolver exits with status zero
and writes exactly `s`, verbatim, followed by a single newline, to standard
output. -/
theorem version_string_passthrough (selfDir : Path) (fs : FS)
    (content : String) (ps : List (String × JValue)) (s : String)
    (h1 : fs (PACKAGE_JSON selfDir) = some content)
    (h2 : json_loads content = some (.obj ps))
    (h3 : lookupDict ps "version" = some (.str s)) :
    (get_version selfDir fs).stdout = s ++ "\n" ∧
    (get_version selfDir fs).exitCode = 0 ∧
    (get_version selfDir fs).error = none := by
  unfold get_version
  dsimp only
  rw [h1]
  dsimp only
  rw [h2]
  dsimp only
  rw [show subscript (.obj ps) "version" = .ok (.str s) from by simp [subscript, h3]]
  exact ⟨rfl, rfl, rfl⟩

/-- Witness for C1 on the manifest `{"version": "4.1.0"}`. -/
theorem version_string_passthrough_witness :
    (fun p => if p = ["app", "superset-frontend", "package.json"]
        then some "\x7b\"version\": \"4.1.0\"\x7d" else none :
      FS) (PACKAGE_JSON ["app", "docker"]) = some "\x7b\"version\": \"4.1.0\"\x7d" ∧
    json_loads "\x7b\"version\": \"4.1.0\"\x7d" = some (.obj [("version", .str "4.1.0")]) ∧
    lookupDict [("version", JValue.str "4.1.0")] "version" = some (.str "4.1.0") ∧
    (get_version ["app", "docker"]
      (fun p => if p = ["app", "superset-frontend", "package.json"]
        then some "\x7b\"version\": \"4.1.0\"\x7d" else none)).stdout = "4.1.0" ++ "\n" ∧
    (get_version ["app", "docker"]
      (fun p => if p = ["app", "superset-frontend", "package.json"]
        then some "\x7b\"version\": \"4.1.0\"\x7d" else none)).exitCode = 0 :=
  have h := version_string_passthrough ["app", "docker"]
    (fun p => if p = ["app", "superset-frontend", "package.json"]
      then some "\x7b\"version\": \"4.1.0\"\x7d" else none)
    "\x7b\"version\": \"4.1.0\"\x7d" [("version", .str "4.1.0")] "4.1.0" rfl rfl rfl
  ⟨rfl, rfl, rfl, h.1, h.2.1⟩

/-- C2: the manifest path is a fixed formula with no search or fallback —
the resolver's own directory, up exactly one level, then down into
`superset-frontend/package.json` — and on every invocation this is the only
path ever opened. -/
theorem manifest_path_fixed_formula (selfDir : Path) (fs : FS)
    (hclean : ∀ s ∈ selfDir, s ≠ "" ∧ s ≠ "." ∧ s ≠ "..") :
    (get_version selfDir fs).opened =
      [selfDir.dropLast ++ ["superset-frontend", "package.json"]] := by
  rw [(run_shape selfDir fs).2, PACKAGE_JSON_eq selfDir hclean]

/-- Witness for C2 at the anchor `/app/docker`. -/
theorem manifest_path_fixed_formula_witness :
    (∀ s ∈ (["app", "docker"] : Path), s ≠ "" ∧ s ≠ "." ∧ s ≠ "..") ∧
    (get_version ["app", "docker"] (fun _ => none)).opened =
      [["app", "superset-frontend", "package.json"]] :=
  ⟨by decide,
    manifest_path_fixed_formula ["app", "docker"] (fun _ => none) (by decide)⟩

/-- C3: when the filesystem yields no readable file at the computed path,
the run fails with `FileNotFoundError`, exits non-zero, and writes nothing
to standard output. -/
theorem missing_manifest_not_found (selfDir : Path) (fs : FS)
    (h : fs (PACKAGE_JSON selfDir) = none) :
    (get_version selfDir fs).stdout = "" ∧
    (get_version selfDir fs).exitCode ≠ 0 ∧
    (get_version selfDir fs).error = some .fileNotFoundError := by
  unfold get_version
  dsimp only
  rw [h]
  exact ⟨rfl, Nat.one_ne_zero, rfl⟩

/-- Witness for C3 on the empty filesystem. -/
theorem missing_manifest_not_found_witness :
    ((fun _ => none : FS) (PACKAGE_JSON ["app", "docker"]) = none) ∧
    (get_version ["app", "docker"] (fun _ => none)).stdout = "" ∧
    (get_version ["app", "docker"] (fun _ => none)).exitCode ≠ 0 ∧
    (get_version ["app", "docker"] (fun _ => none)).error = some .fileNotFoundError :=
  have h := missing_manifest_not_found ["app", "docker"] (fun _ => none) rfl
  ⟨rfl, h.1, h.2.1, h.2.2⟩

/-- C4: when the file exists but its content is not valid JSON, the run
fails with `json.JSONDecodeError`, exits non-zero, and prints no version. -/
theorem malformed_manifest_decode_error (selfDir : Path) (fs : FS)
    (content : String)
    (h1 : fs (PACKAGE_JSON selfDir) = some content)
    (h2 : json_loads content = none) :
    (get_version selfDir fs).stdout = "" ∧
    (get_version selfDir fs).exitCode ≠ 0 ∧
    (get_version selfDir fs).error = some .jsonDecodeError := by
  unfold get_version
  dsimp only
  rw [h1]
  dsimp only
  rw [h2]
  exact ⟨rfl, Nat.one_ne_zero, rfl⟩

/-- Witness for C4 on a truncated manifest. -/
theorem malformed_manifest_decode_error_witness :
    json_loads "\x7b\"version\": " = none ∧
    (get_version ["app", "docker"] (fun _ => some "\x7b\"version\": ")).stdout = "" ∧
    (get_version ["app", "docker"] (fun _ => some "\x7b\"version\": ")).exitCode ≠ 0 ∧
    (get_version ["app", "docker"] (fun _ => some "\x7b\"version\": ")).error =
      some .jsonDecodeError :=
  have h := malformed_manifest_decode_error ["app", "docker"]
    (fun _ => some "\x7b\"version\": ") "\x7b\"version\": " rfl rfl
  ⟨rfl, h.1, h.2.1, h.2.2⟩

/-- C5: when the manifest parses as a JSON object with no `"version"` key,
the run fails with `KeyError`, exits non-zero, and prints no version. -/
theorem missing_version_key_error (selfDir : Path) (fs : FS)
    (content : String) (ps : List (String × JValue))
    (h1 : fs (PACKAGE_JSON selfDir) = some content)
    (h2 : json_loads content = some (.obj ps))
    (h3 : lookupDict ps "version" = none) :
    (get_version selfDir fs).stdout = "" ∧
    (get_version selfDir fs).exitCode ≠ 0 ∧
    (get_version selfDir fs).error = some .keyError := by
  unfold get_version
  dsimp only
  rw [h1]
  dsimp only
  rw [h2]
  dsimp only
  rw [show subscript (.obj ps) "version" = .error .keyError from by simp [subscript, h3]]
  exact ⟨rfl, Nat.one_ne_zero, rfl⟩

/-- Witness for C5 on the manifest `{"name": "superset"}`. -/
theorem missing_version_key_error_witness :
    json_loads "\x7b\"name\": \"superset\"\x7d" =
      some (.obj [("name", .str "superset")]) ∧
    lookupDict [("name", JValue.str "superset")] "version" = none ∧
    (get_version ["app", "docker"]
      (fun _ => some "\x7b\"name\": \"superset\"\x7d")).stdout = "" ∧
    (get_version ["app", "docker"]
      (fun _ => some "\x7b\"name\": \"superset\"\x7d")).exitCode ≠ 0 ∧
    (get_version ["app", "docker"]
      (fun _ => some "\x7b\"name\": \"superset\"\x7d")).error = some .keyError :=
  have h := missing_version_key_error ["app", "docker"]
    (fun _ => some "\x7b\"name\": \"superset\"\x7d") "\x7b\"name\": \"superset\"\x7d"
    [("name", .str "superset")] rfl rfl rfl
  ⟨rfl, rfl, h.1, h.2.1, h.2.2⟩

/-- C6: the resolver is deterministic with no memory across runs — its
entire observable outcome is a function of the manifest content at the
computed path, so any two invocations seeing the same content produce
identical standard output and exit status. -/
theorem resolution_idempotent (selfDir : Path) (fs fs' : FS)
    (h : fs (PACKAGE_JSON selfDir) = fs' (PACKAGE_JSON selfDir)) :
    get_version selfDir fs = get_version selfDir fs' := by
  unfold get_version
  dsimp only
  rw [h]

/-- Witness for C6: two different filesystems agreeing on the manifest. -/
theorem resolution_idempotent_witness :
    get_version ["app", "docker"] (fun _ => some "\x7b\"version\": \"4.1.0\"\x7d") =
      get_version ["app", "docker"]
        (fun p => if p = ["app", "superset-frontend", "package.json"]
          then some "\x7b\"version\": \"4.1.0\"\x7d" else none) :=
  resolution_idempotent ["app", "docker"]
    (fun _ => some "\x7b\"version\": \"4.1.0\"\x7d")
    (fun p => if p = ["app", "superset-frontend", "package.json"]
      then some "\x7b\"version\": \"4.1.0\"\x7d" else none) rfl

/-- C7: the manifest's file handle is scoped — on every run, whatever the
filesystem holds, each acquired handle is released, including when parsing
fails or the version key is missing; no invocation ends with the handle
held. -/
theorem file_handle_always_released (selfDir : Path) (fs : FS) :
    (get_version selfDir fs).released = (get_version selfDir fs).acquired :=
  (run_shape selfDir fs).1

/-- C8: no type check is performed on the extracted field — when the
`"version"` key maps to a non-string JSON value, the run still exits zero
and prints Python's `str` rendering of that value. -/
theorem non_string_version_str_rendering (selfDir : Path) (fs : FS)
    (content : String) (ps : List (String × JValue)) (w : JValue)
    (h1 : fs (PACKAGE_JSON selfDir) = some content)
    (h2 : json_loads content = some (.obj ps))
    (h3 : lookupDict ps "version" = some w)
    (h4 : isStr w = false) :
    (get_version selfDir fs).stdout = pyStr w ++ "\n" ∧
    (get_version selfDir fs).exitCode = 0 ∧
    (get_version selfDir fs).error = none := by
  unfold get_version
  dsimp only
  rw [h1]
  dsimp only
  rw [h2]
  dsimp only
  rw [show subscript (.obj ps) "version" = .ok w from by simp [subscript, h3]]
  exact ⟨rfl, rfl, rfl⟩

/-- Witness for C8 on the manifest `{"version": 4}`. -/
theorem non_string_version_str_rendering_witness :
    json_loads "\x7b\"version\": 4\x7d" = some (.obj [("version", .num (.int 4))]) ∧
    isStr (.num (.int 4)) = false ∧
    (get_version ["app", "docker"]
      (fun _ => some "\x7b\"version\": 4\x7d")).stdout = "4" ++ "\n" ∧
    (get_version ["app", "docker"]
      (fun _ => some "\x7b\"version\": 4\x7d")).exitCode = 0 :=
  have h := non_string_version_str_rendering ["app", "docker"]
    (fun _ => some "\x7b\"version\": 4\x7d") "\x7b\"version\": 4\x7d"
    [("version", .num (.int 4))] (.num (.int 4)) rfl rfl rfl rfl
  ⟨rfl, rfl, h.1, h.2.1⟩

/-- C9: when the manifest is valid JSON whose top-level value is not an
object, the string subscript fails with `TypeError` — a class distinct from
not-found, decode-error and key-error — and the run exits non-zero with
nothing printed. -/
theorem non_object_toplevel_type_error (selfDir : Path) (fs : FS)
    (content : String) (v : JValue)
    (h1 : fs (PACKAGE_JSON selfDir) = some content)
    (h2 : json_loads content = some v)
    (h3 : isObj v = false) :
    (get_version selfDir fs).stdout = "" ∧
    (get_version selfDir fs).exitCode ≠ 0 ∧
    (get_version selfDir fs).error = some .typeError := by
  have hs : subscript v "version" = .error .typeError := by
    cases v with
    | obj ps => simp [isObj] at h3
    | null => rfl
    | bool b => rfl
    | num n => rfl
    | str s => rfl
    | arr xs => rfl
  unfold get_version
  dsimp only
  rw [h1]
  dsimp only
  rw [h2]
  dsimp only
  rw [hs]
  exact ⟨rfl, Nat.one_ne_zero, rfl⟩

/-- Witness for C9 on the manifest `[1, 2]`. -/
theorem non_object_toplevel_type_error_witness :
    json_loads "[1, 2]" = some (.arr [.num (.int 1), .num (.int 2)]) ∧
    isObj (.arr [.num (.int 1), .num (.int 2)]) = false ∧
    (get_version ["app", "docker"] (fun _ => some "[1, 2]")).stdout = "" ∧
    (get_version ["app", "docker"] (fun _ => some "[1, 2]")).exitCode ≠ 0 ∧
    (get_version ["app", "docker"] (fun _ => some "[1, 2]")).error = some .typeError :=
  have h := non_object_toplevel_type_error ["app", "docker"]
    (fun _ => some "[1, 2]") "[1, 2]" (.arr [.num (.int 1), .num (.int 2)]) rfl rfl rfl
  ⟨rfl, rfl, h.1, h.2.1, h.2.2⟩

/-- C10: when the manifest object holds the `"version"` key more than once,
parsing keeps the last occurrence: the run succeeds and prints the value of
the final `"version"` entry in document order, and the duplicates raise no
error. -/
theorem duplicate_version_last_occurrence (selfDir : Path) (fs : FS)
    (content : String) (rps : List (String × RawJson)) (rv : RawJson)
    (h1 : fs (PACKAGE_JSON selfDir) = some content)
    (h2 : json_loads_raw content = some (.object rps))
    (hdup : 2 ≤ (rps.filter (fun p => p.1 = "version")).length)
    (h3 : lastAssoc rps "version" = some rv) :
    (get_version selfDir fs).stdout = pyStr (collapse rv) ++ "\n" ∧
    (get_version selfDir fs).exitCode = 0 ∧
    (get_version selfDir fs).error = none := by
  have hcol : json_loads content = some (.obj (collapseMembers rps [])) := by
    unfold json_loads
    rw [h2]
    rfl
  have hlook : lookupDict (collapseMembers rps []) "version" = some (collapse rv) := by
    rw [lookup_collapseMembers, h3]
  unfold get_version
  dsimp only
  rw [h1]
  dsimp only
  rw [hcol]
  dsimp only
  rw [show subscript (.obj (collapseMembers rps [])) "version" = .ok (collapse rv) from by
    simp [subscript, hlook]]
  exact ⟨rfl, rfl, rfl⟩

/-- Witness for C10 on the manifest `{"version": "1.0", "version": "2.0"}`:
the second occurrence wins. -/
theorem duplicate_version_last_occurrence_witness :
    json_loads_raw "\x7b\"version\": \"1.0\", \"version\": \"2.0\"\x7d" =
      some (.object [("version", .string "1.0"), ("version", .string "2.0")]) ∧
    2 ≤ (([("version", RawJson.string "1.0"), ("version", RawJson.string "2.0")]).filter
      (fun p => p.1 = "version")).length ∧
    lastAssoc [("version", RawJson.string "1.0"), ("version", RawJson.string "2.0")]
      "version" = some (.string "2.0") ∧
    (get_version ["app", "docker"]
      (fun _ => some "\x7b\"version\": \"1.0\", \"version\": \"2.0\"\x7d")).stdout =
      "2.0" ++ "\n" ∧
    (get_version ["app", "docker"]
      (fun _ => some "\x7b\"version\": \"1.0\", \"version\": \"2.0\"\x7d")).exitCode = 0 :=
  have h := duplicate_version_last_occurrence ["app", "docker"]
    (fun _ => some "\x7b\"version\": \"1.0\", \"version\": \"2.0\"\x7d")
    "\x7b\"version\": \"1.0\", \"version\": \"2.0\"\x7d"
    [("version", .string "1.0"), ("version", .string "2.0")] (.string "2.0")
    rfl rfl (by decide) rfl
  ⟨rfl, by decide, rfl, h.1, h.2.1⟩

end GetVersion
